import Mathlib

/-!
Shallow embedding of the forge-cli build/validation pipeline
(src/commands/build.ts, src/commands/remove.ts, src/utils/validation.ts,
src/schemas/component.ts) together with theorems about its behaviour.

Conventions of the embedding:
* JavaScript values that may be any JSON value are modelled by `JsVal`.
* A field that is `undefined` when absent is modelled by `Option`.
* The filesystem visible to the pipeline is modelled by `ComponentDir`:
  one entry per component directory under the configured components root,
  carrying its (raw, JSON-parsed) descriptor, its files with contents, and
  the names of subdirectories that themselves contain a descriptor.
* Machine strings are Lean `String`s; error values pushed by the source are
  modelled structurally (`ValidationError`, `BuildError`) together with
  `render` functions producing the exact strings of the source.
-/

/-- A JSON value as it can appear in a descriptor field typed `z.any()`. -/
inductive JsVal where
  | null
  | bool (b : Bool)
  | num (n : Int)
  | str (s : String)
deriving DecidableEq

/-- JavaScript truthiness of a `JsVal` (used by the `||` operator in the
documentation templates). -/
def JsVal.truthy : JsVal → Bool
  | .null => false
  | .bool b => b
  | .num n => n ≠ 0
  | .str s => s ≠ ""

/-- JavaScript template-literal string conversion of a `JsVal`. -/
def JsVal.render : JsVal → String
  | .null => "null"
  | .bool b => if b then "true" else "false"
  | .num n => toString n
  | .str s => s

/-- The `type` enum of `ComponentFileSchema`. -/
inductive FileType where
  | component
  | hook
  | utility
  | type
deriving DecidableEq

/-- A parsed entry of `files` (`ComponentFileSchema`); the source field
`type` is called `ftype` here. -/
structure ComponentFile where
  name : String
  path : String
  ftype : FileType
deriving DecidableEq

/-- A parsed entry of `props` (`ComponentPropSchema`); the source field
`type` is called `ptype` here. -/
structure ComponentProp where
  name : String
  ptype : String
  required : Bool
  default : Option JsVal
  description : Option String
deriving DecidableEq

/-- A parsed entry of `dependencies` / `peerDependencies`
(`ComponentDependencySchema`). -/
structure ComponentDependency where
  name : String
  version : Option String
  dev : Bool
deriving DecidableEq

/-- A fully parsed component descriptor (`ComponentSchema` output); the
source field `private` is called `privateFlag` here. -/
structure Component where
  name : String
  displayName : String
  description : String
  category : String
  version : String
  author : Option String
  license : String
  props : List ComponentProp
  dependencies : List ComponentDependency
  peerDependencies : List ComponentDependency
  files : List ComponentFile
  examples : List String
  docs : Option String
  registryDependencies : List String
  tags : List String
  preview : Option String
  privateFlag : Bool
  deprecated : Bool
  experimental : Bool
deriving DecidableEq

/-- A raw `files` entry before schema validation: every field may be
absent. -/
structure RawFile where
  name : Option String
  path : Option String
  ftype : Option FileType
deriving DecidableEq

/-- A raw `props` entry before schema validation. -/
structure RawProp where
  name : Option String
  ptype : Option String
  required : Option Bool
  default : Option JsVal
  description : Option String
deriving DecidableEq

/-- A raw dependency entry before schema validation. -/
structure RawDependency where
  name : Option String
  version : Option String
  dev : Option Bool
deriving DecidableEq

/-- A raw component descriptor (the JSON record read from a
`component.json`) before schema validation.  Field values are already
well-typed; the embedding models presence/absence, on which the schema's
required-field checks and defaulting act. -/
structure RawComponent where
  name : Option String
  displayName : Option String
  description : Option String
  category : Option String
  version : Option String
  author : Option String
  license : Option String
  props : Option (List RawProp)
  dependencies : Option (List RawDependency)
  peerDependencies : Option (List RawDependency)
  files : Option (List RawFile)
  examples : Option (List String)
  docs : Option String
  registryDependencies : Option (List String)
  tags : Option (List String)
  preview : Option String
  privateFlag : Option Bool
  deprecated : Option Bool
  experimental : Option Bool
deriving DecidableEq

/-- The regular expression of `ComponentSchema.name`:
`^[a-z][a-z0-9-]*$`. -/
def nameOk (s : String) : Bool :=
  match s.data with
  | [] => false
  | c :: cs =>
    (97 ≤ c.toNat && c.toNat ≤ 122) &&
      cs.all (fun d =>
        (97 ≤ d.toNat && d.toNat ≤ 122) || (48 ≤ d.toNat && d.toNat ≤ 57) || d = '-')

/-- `ComponentFileSchema.parse`: `name` and `path` are required, the file
`type` defaults to `component`. -/
def parseFile (r : RawFile) : Except String ComponentFile :=
  match r.name, r.path with
  | some n, some p => Except.ok { name := n, path := p, ftype := r.ftype.getD FileType.component }
  | _, _ => Except.error "files: Required"

/-- `ComponentPropSchema.parse`: `name` and `type` are required strings,
`required` defaults to `false`, `default` and `description` stay
optional. -/
def parseProp (r : RawProp) : Except String ComponentProp :=
  match r.name, r.ptype with
  | some n, some t =>
    Except.ok { name := n, ptype := t, required := r.required.getD false,
                default := r.default, description := r.description }
  | _, _ => Except.error "props: Required"

/-- `ComponentDependencySchema.parse`: `name` is required, `version` stays
optional, `dev` defaults to `false`. -/
def parseDependency (r : RawDependency) : Except String ComponentDependency :=
  match r.name with
  | some n => Except.ok { name := n, version := r.version, dev := r.dev.getD false }
  | none => Except.error "dependencies: Required"

/-- Traversal of a list under a fallible element parser, stopping at the
first failure (the element-wise validation of a zod array schema). -/
def mapExcept (f : α → Except String β) : List α → Except String (List β)
  | [] => Except.ok []
  | a :: as =>
    match f a with
    | Except.error e => Except.error e
    | Except.ok b =>
      match mapExcept f as with
      | Except.error e => Except.error e
      | Except.ok bs => Except.ok (b :: bs)

/-- `ComponentSchema.parse`.  Required fields: `name` (matching the name
pattern), `displayName`, `description` and `files` (which has no
default).  Defaults: `category` to "ui", `version` to "1.0.0", `license`
to "MIT", the remaining list fields to `[]` and the flags to `false`. -/
def ComponentSchema_parse (r : RawComponent) : Except String Component :=
  match r.name with
  | none => Except.error "name: Required"
  | some n =>
    if nameOk n = false then
      Except.error "Component name must be lowercase, start with a letter, and contain only letters, numbers, and hyphens"
    else
      match r.displayName with
      | none => Except.error "displayName: Required"
      | some dn =>
        match r.description with
        | none => Except.error "description: Required"
        | some ds =>
          match r.files with
          | none => Except.error "files: Required"
          | some rawFiles =>
            match mapExcept parseFile rawFiles with
            | Except.error e => Except.error e
            | Except.ok files =>
              match mapExcept parseProp (r.props.getD []) with
              | Except.error e => Except.error e
              | Except.ok props =>
                match mapExcept parseDependency (r.dependencies.getD []) with
                | Except.error e => Except.error e
                | Except.ok dependencies =>
                  match mapExcept parseDependency (r.peerDependencies.getD []) with
                  | Except.error e => Except.error e
                  | Except.ok peerDependencies =>
                    Except.ok
                      { name := n, displayName := dn, description := ds,
                        category := r.category.getD "ui",
                        version := r.version.getD "1.0.0",
                        author := r.author,
                        license := r.license.getD "MIT",
                        props := props, dependencies := dependencies,
                        peerDependencies := peerDependencies, files := files,
                        examples := r.examples.getD [],
                        docs := r.docs,
                        registryDependencies := r.registryDependencies.getD [],
                        tags := r.tags.getD [],
                        preview := r.preview,
                        privateFlag := r.privateFlag.getD false,
                        deprecated := r.deprecated.getD false,
                        experimental := r.experimental.getD false }

/-- A file inside a component directory, with its content (the stat size of
the source is the content length). -/
structure DirFile where
  path : String
  content : String
deriving DecidableEq

/-- A component directory under the configured components root: the
directory name, the raw descriptor of its `component.json` (if any), its
files, and the names of subdirectories that themselves contain a
`component.json` (what `checkForNestedComponents` scans for). -/
structure ComponentDir where
  name : String
  descriptor : Option RawComponent
  files : List DirFile
  nestedDescriptorDirs : List String
deriving DecidableEq

/-- The components root: the sibling component directories, in discovery
(glob) order. -/
def Env : Type := List ComponentDir

/-- Whether a file exists in a component directory (`fs.pathExists`). -/
def fileExists (dir : ComponentDir) (p : String) : Bool :=
  (dir.files.find? (fun f => f.path = p)).isSome

/-- Reading a file (`fs.readFile`): rejects with an ENOENT error when the
file is absent. -/
def readFileE (dir : ComponentDir) (p : String) : Except String String :=
  match dir.files.find? (fun f => f.path = p) with
  | some f => Except.ok f.content
  | none => Except.error ("ENOENT: no such file or directory, open " ++ p)

/-- Whether `needle` is an initial segment of `hay`. -/
def leadsList : List Char → List Char → Bool
  | [], _ => true
  | _ :: _, [] => false
  | a :: as, b :: bs => a = b && leadsList as bs

/-- Whether `needle` occurs as a contiguous sublist of `hay`
(`String.prototype.includes`). -/
def subOccurs (needle : List Char) : List Char → Bool
  | [] => leadsList needle []
  | c :: rest => leadsList needle (c :: rest) || subOccurs needle rest

/-- `hay.includes(needle)` of JavaScript. -/
def containsSub (hay needle : String) : Bool :=
  subOccurs needle.data hay.data

/-- `s.endsWith(suffix)` of JavaScript. -/
def strEndsWith (s suffix : String) : Bool :=
  leadsList suffix.data.reverse s.data.reverse

/-- The characters after the last slash of a path. -/
def afterLastSlash (cs : List Char) : List Char :=
  cs.foldl (fun acc c => if c = '/' then [] else acc ++ [c]) []

/-- The suffix starting at the last `.` of the list, if any. -/
def extChars : List Char → Option (List Char)
  | [] => none
  | c :: rest =>
    match extChars rest with
    | some e => some e
    | none => if c = '.' then some (c :: rest) else none

/-- Node's `path.extname`: the extension of the basename, from its last
dot; a dot in leading position does not start an extension. -/
def extname (p : String) : String :=
  match afterLastSlash p.data with
  | [] => ""
  | _ :: brest =>
    match extChars brest with
    | some e => String.mk e
    | none => ""

/-- The errors `validateComponent` can push, structurally;
`ValidationError.render` produces the exact strings of the source. -/
inductive ValidationError where
  | nestedComponents
  | badComponentExt (path : String)
  | badTypeExt (path : String)
  | emptyFile (path : String)
  | missingExport (path : String)
  | missingReactImport (path : String)
  | invalidProp
  | requiredWithDefault (name : String)
  | circular (names : List String)
deriving DecidableEq

/-- The exact error strings pushed by `validateComponent`. -/
def ValidationError.render : ValidationError → String
  | .nestedComponents => "Components cannot be nested. Each component should be in its own directory."
  | .badComponentExt p => "Component file " ++ p ++ " should have .tsx or .jsx extension"
  | .badTypeExt p => "Type file " ++ p ++ " should have .ts or .d.ts extension"
  | .emptyFile p => "File " ++ p ++ " is empty"
  | .missingExport p => "Component file " ++ p ++ " should export the component"
  | .missingReactImport p => "React component " ++ p ++ " should import React"
  | .invalidProp => "Invalid prop definition: name and type are required"
  | .requiredWithDefault n => "Prop " ++ n ++ " cannot be both required and have a default value"
  | .circular names => "Circular dependencies detected: " ++ String.intercalate ", " names

/-- `checkForNestedComponents`: true when some subdirectory of the
component directory contains a descriptor. -/
def checkForNestedComponents (dir : ComponentDir) : Bool :=
  ¬ dir.nestedDescriptorDirs.isEmpty

/-- The extension and emptiness checks of `validateComponent`'s first
file loop. -/
def perFileErrors (dir : ComponentDir) (f : ComponentFile) : List ValidationError :=
  (if f.ftype = FileType.component ∧ ¬ (extname f.path = ".tsx" ∨ extname f.path = ".jsx")
   then [ValidationError.badComponentExt f.path] else []) ++
  (if f.ftype = FileType.type ∧ ¬ (extname f.path = ".ts" ∨ extname f.path = ".d.ts")
   then [ValidationError.badTypeExt f.path] else []) ++
  (match dir.files.find? (fun df => df.path = f.path) with
   | some df => if df.content = "" then [ValidationError.emptyFile f.path] else []
   | none => [])

/-- The first file loop of `validateComponent`. -/
def fileCheckErrors (dir : ComponentDir) (files : List ComponentFile) : List ValidationError :=
  (files.map (perFileErrors dir)).join

/-- The second file loop of `validateComponent`: for each file of type
`component` the file is read unconditionally (`fs.readFile`), so a missing
file surfaces as a thrown ENOENT error (`Except.error`). -/
def contentCheckErrors (dir : ComponentDir) : List ComponentFile → Except String (List ValidationError)
  | [] => Except.ok []
  | f :: rest =>
    if f.ftype = FileType.component then
      match readFileE dir f.path with
      | Except.error e => Except.error e
      | Except.ok content =>
        let e1 := if containsSub content "export" then [] else [ValidationError.missingExport f.path]
        let e2 := if (strEndsWith f.path ".tsx" ∨ strEndsWith f.path ".jsx") ∧ ¬ containsSub content "import React"
                  then [ValidationError.missingReactImport f.path] else []
        match contentCheckErrors dir rest with
        | Except.error e => Except.error e
        | Except.ok es => Except.ok (e1 ++ e2 ++ es)
    else contentCheckErrors dir rest

/-- The props consistency loop of `validateComponent` (JavaScript
falsiness of `prop.name` / `prop.type` is emptiness of the parsed
string). -/
def propCheckErrors (props : List ComponentProp) : List ValidationError :=
  (props.map (fun prop =>
    (if prop.name = "" ∨ prop.ptype = "" then [ValidationError.invalidProp] else []) ++
    (if prop.required ∧ prop.default.isSome then [ValidationError.requiredWithDefault prop.name] else []))).join

/-- Whether a sibling directory named `dep` containing a descriptor exists
(the `fs.pathExists(path.join(depDir, "component.json"))` check). -/
def siblingHasDescriptor (env : Env) (dep : String) : Bool :=
  (List.find? (fun d => d.name = dep ∧ d.descriptor.isSome) env).isSome

/-- The mutable state of the `dfs` closure in
`checkCircularDependencies`. -/
structure DfsState where
  visited : List String
  recursionStack : List String
  cycles : List String
deriving DecidableEq

/-- The `dfs` closure of `checkCircularDependencies`.  Note that the loop
body iterates `component.registryDependencies` — the dependencies of the
OUTER component being validated — at every recursion level, exactly as the
source does.  The `fuel` argument bounds the recursion depth; each
recursive level inserts a previously unvisited name into `visited`, and
reachable names are drawn from `component.registryDependencies` plus the
start name, so depth never exceeds
`component.registryDependencies.length + 2` and that fuel makes the
embedding total on exactly the recursion the source performs. -/
def dfs (component : Component) (env : Env) : Nat → DfsState → String → DfsState
  | 0, st, _ => st
  | Nat.succ fuel, st, compName =>
    if st.recursionStack.contains compName then
      { st with cycles := st.cycles ++ [compName] }
    else if st.visited.contains compName then st
    else
      let st1 : DfsState :=
        { st with visited := st.visited ++ [compName],
                  recursionStack := st.recursionStack ++ [compName] }
      let st2 := component.registryDependencies.foldl
        (fun acc dep => if siblingHasDescriptor env dep then dfs component env fuel acc dep else acc) st1
      { st2 with recursionStack := st2.recursionStack.erase compName }

/-- `checkCircularDependencies`: runs `dfs` from the component being
validated and returns the collected `cycles` list. -/
def checkCircularDependencies (component : Component) (env : Env) : List String :=
  (dfs component env (component.registryDependencies.length + 2)
    { visited := [], recursionStack := [], cycles := [] } component.name).cycles

/-- `validateComponent`: the accumulated error list, or a thrown error
(`Except.error`) when reading a listed component file fails. -/
def validateComponent (component : Component) (dir : ComponentDir) (env : Env) :
    Except String (List ValidationError) :=
  let nestedErrors :=
    if checkForNestedComponents dir then [ValidationError.nestedComponents] else []
  let extAndEmptyErrors := fileCheckErrors dir component.files
  match contentCheckErrors dir component.files with
  | Except.error e => Except.error e
  | Except.ok contentErrors =>
    let propErrors := propCheckErrors component.props
    let circularDeps := checkCircularDependencies component env
    let circularErrors :=
      if circularDeps.length > 0 then [ValidationError.circular circularDeps] else []
    Except.ok (nestedErrors ++ extAndEmptyErrors ++ contentErrors ++ propErrors ++ circularErrors)

/-- The loaded forge configuration fields that the build pipeline reads. -/
structure ForgeConfig where
  name : String
  description : Option String
  author : Option String
  license : String
  repository : Option String
  homepage : Option String
  componentsDir : String
  outputDir : String
deriving DecidableEq

/-- The registry document assembled by `buildCommand` and rewritten by
`removeCommand`. -/
structure Registry where
  name : String
  description : String
  version : String
  author : String
  license : String
  repository : String
  homepage : String
  components : List Component
  categories : List String
  tags : List String
  lastUpdated : String
deriving DecidableEq

/-- The build time: its ISO rendering (`new Date().toISOString()`) and its
year (`new Date().getFullYear()`, used by the documentation footer). -/
structure BuildTime where
  iso : String
  year : Int
deriving DecidableEq

/-- The errors accumulated by `buildCommand`, structurally;
`BuildError.render` produces the exact strings of the source. -/
inductive BuildError where
  | duplicateName (name : String)
  | missingFiles (name : String) (paths : List String)
  | semantic (name : String) (messages : List String)
  | failedToProcess (path : String) (message : String)
deriving DecidableEq

/-- The exact error strings pushed by `buildCommand`. -/
def BuildError.render : BuildError → String
  | .duplicateName n => "Duplicate component name: " ++ n
  | .missingFiles n ps => "Component " ++ n ++ " missing files: " ++ String.intercalate ", " ps
  | .semantic n ms => "Component " ++ n ++ ": " ++ String.intercalate ", " ms
  | .failedToProcess p m => "Failed to process " ++ p ++ ": " ++ m

/-- The accumulator of `buildCommand`'s processing loop: the `components`
array, the `componentNames` set and the `errors` array of the source. -/
structure BuildState where
  components : List Component
  componentNames : List String
  errors : List BuildError
deriving DecidableEq

/-- The initial accumulator of the processing loop. -/
def initialBuildState : BuildState :=
  { components := [], componentNames := [], errors := [] }

/-- One iteration of `buildCommand`'s `for (const componentPath of
componentPaths)` loop: parse, schema-validate, duplicate-name check
(registering the name before the remaining checks), missing-file check,
semantic validation, and acceptance; a thrown error from
`validateComponent` is caught by the surrounding `try` and recorded as a
"Failed to process" error. -/
def processDir (env : Env) (st : BuildState) (d : ComponentDir) : BuildState :=
  match d.descriptor with
  | none => st
  | some raw =>
    match ComponentSchema_parse raw with
    | Except.error msg =>
      { st with errors := st.errors ++ [BuildError.failedToProcess d.name msg] }
    | Except.ok component =>
      if st.componentNames.contains component.name then
        { st with errors := st.errors ++ [BuildError.duplicateName component.name] }
      else
        let st1 : BuildState := { st with componentNames := st.componentNames ++ [component.name] }
        let missingFiles := (component.files.filter (fun f => ¬ fileExists d f.path)).map (fun f => f.path)
        if missingFiles ≠ [] then
          { st1 with errors := st1.errors ++ [BuildError.missingFiles component.name missingFiles] }
        else
          match validateComponent component d env with
          | Except.error msg =>
            { st1 with errors := st1.errors ++ [BuildError.failedToProcess d.name msg] }
          | Except.ok validationErrors =>
            if validationErrors ≠ [] then
              { st1 with errors := st1.errors ++
                  [BuildError.semantic component.name (validationErrors.map ValidationError.render)] }
            else
              { st1 with components := st1.components ++ [component] }

/-- The directories discovered by the glob over the components root: those
containing a `component.json`. -/
def discoveredDirs (env : Env) : List ComponentDir :=
  env.filter (fun d => d.descriptor.isSome)

/-- First-occurrence deduplication: `[...new Set(xs)]`. -/
def dedup (xs : List String) : List String :=
  xs.foldl (fun acc x => if acc.contains x then acc else acc ++ [x]) []

/-- JavaScript `x || ""` over an optional string field. -/
def orEmpty (o : Option String) : String :=
  match o with
  | some s => s
  | none => ""

/-- The registry object assembled by `buildCommand` (lines 92-104 of
build.ts). -/
def mkRegistry (config : ForgeConfig) (components : List Component) (now : BuildTime) : Registry :=
  { name := config.name, description := orEmpty config.description,
    version := "1.0.0", author := orEmpty config.author,
    license := config.license, repository := orEmpty config.repository,
    homepage := orEmpty config.homepage,
    components := components,
    categories := dedup (components.map (fun c => c.category)),
    tags := dedup ((components.map (fun c => c.tags)).join),
    lastUpdated := now.iso }

/-- The mirror of a component under `outputDir/components/<name>/`: the
copied files (content looked up in the source directory named after the
component) and the copied descriptor. -/
structure CopiedComponent where
  name : String
  files : List (String × Option String)
  descriptor : Option RawComponent
deriving DecidableEq

/-- Copying one accepted component into the output tree (build.ts lines
118-136); the source directory is `componentsDir/<component.name>`. -/
def copyComponent (env : Env) (component : Component) : CopiedComponent :=
  let sourceDir := env.find? (fun d => d.name = component.name)
  { name := component.name,
    files := component.files.map (fun f =>
      (f.path, sourceDir.bind (fun d => (d.files.find? (fun df => df.path = f.path)).map (fun df => df.content)))),
    descriptor := sourceDir.bind (fun d => d.descriptor) }

/-- One row of a documentation props table (build.ts lines 342-350). -/
structure PropRow where
  name : String
  ptype : String
  requiredCell : String
  defaultCell : String
  descriptionCell : String
deriving DecidableEq

/-- `${prop.default || '—'}` of the props table: the em dash when the
optional value is absent or falsy, its rendering otherwise. -/
def jsValOrDash (v : Option JsVal) : String :=
  match v with
  | none => "—"
  | some j => if j.truthy then j.render else "—"

/-- `${prop.description || '—'}` of the props table. -/
def strOrDash (v : Option String) : String :=
  match v with
  | none => "—"
  | some s => if s = "" then "—" else s

/-- Rendering one row of the props table. -/
def renderPropRow (prop : ComponentProp) : PropRow :=
  { name := prop.name, ptype := prop.ptype,
    requiredCell := if prop.required then "✓" else "—",
    defaultCell := jsValOrDash prop.default,
    descriptionCell := strOrDash prop.description }

/-- `${dep.name}${dep.version ? `@ver` : ''}` of a dependency row. -/
def renderDepRow (dep : ComponentDependency) : String :=
  dep.name ++ (match dep.version with
    | some v => if v = "" then "" else "@" ++ v
    | none => "")

/-- A component card on the documentation overview page. -/
structure ComponentCard where
  displayName : String
  description : String
  category : String
  tags : List String
  name : String
deriving DecidableEq

/-- The data interpolated into `docs/index.html` by
`generateDocumentation`; `year` is the footer's
`new Date().getFullYear()`. -/
structure DocsIndexPage where
  title : String
  description : String
  componentCount : Nat
  categoryCount : Nat
  version : String
  componentCards : List ComponentCard
  categoryCounts : List (String × Nat)
  year : Int
  author : String
  license : String
  repository : String
deriving DecidableEq

/-- The data interpolated into a per-component documentation page. -/
structure ComponentPage where
  title : String
  displayName : String
  description : String
  category : String
  tags : List String
  installName : String
  examples : List String
  propsRows : List PropRow
  fileRows : List (FileType × String)
  depRows : List String
deriving DecidableEq

/-- Rendering the documentation overview page from the registry. -/
def renderDocsIndexPage (registry : Registry) (year : Int) : DocsIndexPage :=
  { title := registry.name, description := registry.description,
    componentCount := registry.components.length,
    categoryCount := registry.categories.length,
    version := registry.version,
    componentCards := registry.components.map (fun c =>
      { displayName := c.displayName, description := c.description,
        category := c.category, tags := c.tags, name := c.name }),
    categoryCounts := registry.categories.map (fun cat =>
      (cat, (registry.components.filter (fun c => c.category = cat)).length)),
    year := year, author := registry.author, license := registry.license,
    repository := registry.repository }

/-- Rendering one per-component documentation page. -/
def renderComponentPage (registryName : String) (c : Component) : ComponentPage :=
  { title := c.displayName ++ " - " ++ registryName,
    displayName := c.displayName, description := c.description,
    category := c.category, tags := c.tags, installName := c.name,
    examples := c.examples,
    propsRows := c.props.map renderPropRow,
    fileRows := c.files.map (fun f => (f.ftype, f.path)),
    depRows := c.dependencies.map renderDepRow }

/-- One entry of the flat `index.json` (`generateIndexFiles`). -/
structure IndexEntry where
  name : String
  displayName : String
  description : String
  category : String
  version : String
  tags : List String
  files : Nat
deriving DecidableEq

/-- The flat `index.json` document. -/
structure IndexDoc where
  components : List IndexEntry
  categories : List String
  totalComponents : Nat
  lastUpdated : String
deriving DecidableEq

/-- `generateIndexFiles`. -/
def mkIndexDoc (components : List Component) (now : BuildTime) : IndexDoc :=
  { components := components.map (fun c =>
      { name := c.name, displayName := c.displayName, description := c.description,
        category := c.category, version := c.version, tags := c.tags,
        files := c.files.length }),
    categories := dedup (components.map (fun c => c.category)),
    totalComponents := components.length,
    lastUpdated := now.iso }

/-- `Map.set` of JavaScript on an insertion-ordered association list:
updating an existing key keeps its position, a new key is appended. -/
def mapSet (m : List (String × String)) (k v : String) : List (String × String) :=
  if m.any (fun p => p.1 = k) then m.map (fun p => if p.1 = k then (k, v) else p)
  else m ++ [(k, v)]

/-- `dep.version || 'latest'` of `generateDependencyManifest`. -/
def versionOrLatest (v : Option String) : String :=
  match v with
  | some s => if s = "" then "latest" else s
  | none => "latest"

/-- The `dependencies.json` manifest. -/
structure Manifest where
  dependencies : List (String × String)
  peerDependencies : List (String × String)
  generatedAt : String
  componentCount : Nat
deriving DecidableEq

/-- `generateDependencyManifest`: merge non-dev dependencies and all peer
dependencies into two flat maps, last write wins. -/
def mkManifest (components : List Component) (now : BuildTime) : Manifest :=
  { dependencies := components.foldl (fun m c =>
      c.dependencies.foldl (fun m dep =>
        if dep.dev then m else mapSet m dep.name (versionOrLatest dep.version)) m) [],
    peerDependencies := components.foldl (fun m c =>
      c.peerDependencies.foldl (fun m dep =>
        mapSet m dep.name (versionOrLatest dep.version)) m) [],
    generatedAt := now.iso, componentCount := components.length }

/-- Everything `buildCommand` writes under the output directory. -/
structure BuildOutput where
  registryJson : Option Registry
  copiedComponents : List CopiedComponent
  docsIndex : Option DocsIndexPage
  docsPages : List (String × ComponentPage)
  indexJson : Option IndexDoc
  dependenciesJson : Option Manifest
deriving DecidableEq

/-- The output of a build that wrote nothing. -/
def emptyOutput : BuildOutput :=
  { registryJson := none, copiedComponents := [], docsIndex := none,
    docsPages := [], indexJson := none, dependenciesJson := none }

/-- The write phase of a successful build (build.ts lines 92-147). -/
def generateOutputs (config : ForgeConfig) (env : Env) (components : List Component)
    (now : BuildTime) : BuildOutput :=
  let registry := mkRegistry config components now
  { registryJson := some registry,
    copiedComponents := components.map (copyComponent env),
    docsIndex := some (renderDocsIndexPage registry now.year),
    docsPages := registry.components.map (fun c => (c.name, renderComponentPage registry.name c)),
    indexJson := some (mkIndexDoc components now),
    dependenciesJson := some (mkManifest components now) }

/-- The observable result of one `buildCommand` invocation: the
accumulated error list, the in-memory aggregated component list, what was
written, and the process exit code. -/
structure BuildResult where
  errors : List BuildError
  components : List Component
  output : BuildOutput
  exitCode : Nat
deriving DecidableEq

/-- `buildCommand`.  When any error was accumulated the command reports
the errors and returns normally (build.ts lines 82-87) — it reaches
`process.exit(1)` only on a thrown exception, which no accumulated-error
path performs, so every modelled path carries exit code 0. -/
def buildCommand (config : ForgeConfig) (env : Env) (now : BuildTime) : BuildResult :=
  let discovered := discoveredDirs env
  if discovered.isEmpty then
    { errors := [], components := [], output := emptyOutput, exitCode := 0 }
  else
    let st := discovered.foldl (processDir env) initialBuildState
    if st.errors ≠ [] then
      { errors := st.errors, components := st.components, output := emptyOutput, exitCode := 0 }
    else
      { errors := [], components := st.components,
        output := generateOutputs config env st.components now, exitCode := 0 }

/-- The registry rewrite of `removeCommand` (remove.ts lines 69-74): drop
every component entry named `componentName`, refresh `lastUpdated`, leave
every other field as read. -/
def removeFromRegistry (registry : Registry) (componentName : String) (now : String) : Registry :=
  { registry with
    components := registry.components.filter (fun c => ¬ c.name = componentName),
    lastUpdated := now }

/-- The parsed component of a directory, when its descriptor parses. -/
def dirParse (d : ComponentDir) : Option Component :=
  match d.descriptor with
  | none => none
  | some raw => (ComponentSchema_parse raw).toOption

/-- The registry dependencies declared by the sibling component named
`name`, per its own descriptor. -/
def envDeps (env : Env) (name : String) : List String :=
  match List.find? (fun d => d.name = name ∧ d.descriptor.isSome) env with
  | some d =>
    match dirParse d with
    | some c => c.registryDependencies
    | none => []
  | none => []

/-- Modelled from the spec (circular dependency detection): the directed
graph has an edge from A to B when B is in A's own `registryDependencies`
and B's sibling directory contains a descriptor; a depth-first traversal
from the start maintains a recursion stack and reports a cycle when a node
on the stack is revisited.  Fuel `env.length + 1` suffices: a path that is
longer than the number of directories must revisit a stack entry. -/
def specDfs (env : Env) : Nat → List String → String → Bool
  | 0, _, _ => false
  | Nat.succ fuel, stack, node =>
    if stack.contains node then true
    else (envDeps env node).any (fun dep =>
      if siblingHasDescriptor env dep then specDfs env fuel (stack ++ [node]) dep else false)

/-- Modelled from the spec: whether a registry-dependency cycle is
reachable from `start` in the sibling graph. -/
def spec_hasCycleFrom (env : Env) (start : String) : Bool :=
  specDfs env (env.length + 1) [] start

/-- A raw descriptor with only the required fields and a given name,
file list and registry dependencies; every optional field is absent. -/
def mkRawComponent (name : String) (files : List RawFile) (registryDeps : Option (List String)) : RawComponent :=
  { name := some name, displayName := some name, description := some name,
    category := none, version := none, author := none, license := none,
    props := none, dependencies := none, peerDependencies := none,
    files := some files, examples := none, docs := none,
    registryDependencies := registryDeps, tags := none, preview := none,
    privateFlag := none, deprecated := none, experimental := none }

/-- A raw `files` entry naming a single `.tsx` component file. -/
def mkRawFile (p : String) : RawFile :=
  { name := some p, path := some p, ftype := some FileType.component }

/-- Source text for fixture component files: exports a component and
imports React. -/
def okContent : String := "import React\nexport Thing"

/-- Fixture: component directory `alpha` depending on sibling `beta`;
`beta` has no dependencies, so the dependency graph is acyclic. -/
def alphaDir : ComponentDir :=
  { name := "alpha",
    descriptor := some (mkRawComponent "alpha" [mkRawFile "alpha.tsx"] (some ["beta"])),
    files := [{ path := "alpha.tsx", content := okContent }],
    nestedDescriptorDirs := [] }

/-- Fixture: component directory `beta` with no dependencies. -/
def betaDir : ComponentDir :=
  { name := "beta",
    descriptor := some (mkRawComponent "beta" [mkRawFile "beta.tsx"] none),
    files := [{ path := "beta.tsx", content := okContent }],
    nestedDescriptorDirs := [] }

/-- Fixture environment for the acyclic alpha → beta dependency. -/
def acyclicEnv : Env := [alphaDir, betaDir]

/-- The parsed `alpha` component of the acyclic fixture. -/
def alphaComponent : Component :=
  { name := "alpha", displayName := "alpha", description := "alpha",
    category := "ui", version := "1.0.0", author := none, license := "MIT",
    props := [], dependencies := [], peerDependencies := [],
    files := [{ name := "alpha.tsx", path := "alpha.tsx", ftype := FileType.component }],
    examples := [], docs := none, registryDependencies := ["beta"],
    tags := [], preview := none, privateFlag := false, deprecated := false,
    experimental := false }

/-- Fixture: the cyclic trio a → b → c → a via `registryDependencies`. -/
def trioDirA : ComponentDir :=
  { name := "aaa",
    descriptor := some (mkRawComponent "aaa" [mkRawFile "aaa.tsx"] (some ["bbb"])),
    files := [{ path := "aaa.tsx", content := okContent }],
    nestedDescriptorDirs := [] }

/-- Second member of the cyclic trio. -/
def trioDirB : ComponentDir :=
  { name := "bbb",
    descriptor := some (mkRawComponent "bbb" [mkRawFile "bbb.tsx"] (some ["ccc"])),
    files := [{ path := "bbb.tsx", content := okContent }],
    nestedDescriptorDirs := [] }

/-- Third member of the cyclic trio. -/
def trioDirC : ComponentDir :=
  { name := "ccc",
    descriptor := some (mkRawComponent "ccc" [mkRawFile "ccc.tsx"] (some ["aaa"])),
    files := [{ path := "ccc.tsx", content := okContent }],
    nestedDescriptorDirs := [] }

/-- Fixture environment of the cyclic trio. -/
def trioEnv : Env := [trioDirA, trioDirB, trioDirC]

/-- A parsed trio component with the given name and dependency. -/
def mkTrioComponent (name dep : String) : Component :=
  { name := name, displayName := name, description := name,
    category := "ui", version := "1.0.0", author := none, license := "MIT",
    props := [], dependencies := [], peerDependencies := [],
    files := [{ name := name ++ ".tsx", path := name ++ ".tsx", ftype := FileType.component }],
    examples := [], docs := none, registryDependencies := [dep],
    tags := [], preview := none, privateFlag := false, deprecated := false,
    experimental := false }

/-- Fixture: the `checkbox` component declares `checkbox.tsx` but the file
is absent from its directory. -/
def checkboxDir : ComponentDir :=
  { name := "checkbox",
    descriptor := some (mkRawComponent "checkbox" [mkRawFile "checkbox.tsx"] none),
    files := [],
    nestedDescriptorDirs := [] }

/-- The parsed `checkbox` component of the missing-file fixture. -/
def checkboxComponent : Component :=
  { name := "checkbox", displayName := "checkbox", description := "checkbox",
    category := "ui", version := "1.0.0", author := none, license := "MIT",
    props := [], dependencies := [], peerDependencies := [],
    files := [{ name := "checkbox.tsx", path := "checkbox.tsx", ftype := FileType.component }],
    examples := [], docs := none, registryDependencies := [],
    tags := [], preview := none, privateFlag := false, deprecated := false,
    experimental := false }

/-- Fixture: a fully valid `button` component directory. -/
def buttonDir : ComponentDir :=
  { name := "button",
    descriptor := some (mkRawComponent "button" [mkRawFile "button.tsx"] none),
    files := [{ path := "button.tsx", content := okContent }],
    nestedDescriptorDirs := [] }

/-- The parsed `button` component of the fixtures. -/
def buttonComponent : Component :=
  { name := "button", displayName := "button", description := "button",
    category := "ui", version := "1.0.0", author := none, license := "MIT",
    props := [], dependencies := [], peerDependencies := [],
    files := [{ name := "button.tsx", path := "button.tsx", ftype := FileType.component }],
    examples := [], docs := none, registryDependencies := [],
    tags := [], preview := none, privateFlag := false, deprecated := false,
    experimental := false }

/-- Fixture configuration for the build scenarios. -/
def fixtureConfig : ForgeConfig :=
  { name := "my-lib", description := none, author := none, license := "MIT",
    repository := none, homepage := none,
    componentsDir := "src/components", outputDir := "public" }

/-- Fixture build time. -/
def fixtureTime : BuildTime := { iso := "2026-01-01T00:00:00.000Z", year := 2026 }

/-- Fixture environment of the missing-file build scenario: a valid
`button` next to the broken `checkbox`. -/
def checkboxEnv : Env := [buttonDir, checkboxDir]

/-- Fixture environment with only the valid `button` component. -/
def buttonEnv : Env := [buttonDir]

/-- An earlier fixture build time, in a different year. -/
def earlierTime : BuildTime := { iso := "2025-12-31T23:59:59.000Z", year := 2025 }

/-- Erase exactly the timestamp fields of the build outputs: the
registry's `lastUpdated`, the index's `lastUpdated` and the manifest's
`generatedAt`. -/
def eraseTimestampFields (o : BuildOutput) : BuildOutput :=
  { o with registryJson := o.registryJson.map (fun r => { r with lastUpdated := "" }),
           indexJson := o.indexJson.map (fun i => { i with lastUpdated := "" }),
           dependenciesJson := o.dependenciesJson.map (fun m => { m with generatedAt := "" }) }

/-- Erase every build-time-derived field of the build outputs: the
timestamp fields and the documentation footer year. -/
def eraseTimeDerived (o : BuildOutput) : BuildOutput :=
  { o with registryJson := o.registryJson.map (fun r => { r with lastUpdated := "" }),
           indexJson := o.indexJson.map (fun i => { i with lastUpdated := "" }),
           dependenciesJson := o.dependenciesJson.map (fun m => { m with generatedAt := "" }),
           docsIndex := o.docsIndex.map (fun p => { p with year := 0 }) }

/-- A raw descriptor whose `files` field is absent. -/
def rawNoFiles : RawComponent :=
  { mkRawComponent "switch" [] none with files := none }

/-- C1: the claim states that cycle detection flags a component exactly
when the sibling registry-dependency graph has a cycle reachable from it.
The code contradicts it: `dfs` iterates the outer component's
`registryDependencies` at every level, so on the acyclic graph
alpha → beta (beta has no dependencies) validating `alpha` still records
the spurious cycle `["beta"]`, while the spec-modelled traversal of the
actual graph finds no cycle. -/
theorem c1_cycle_check_flags_acyclic_graph :
    dirParse alphaDir = some alphaComponent ∧
    spec_hasCycleFrom acyclicEnv "alpha" = false ∧
    checkCircularDependencies alphaComponent acyclicEnv = ["beta"] := by
  refine ⟨by decide, by decide, by decide⟩

/-- C4: the claim states `validateComponent` never raises when a listed
file is absent.  The code contradicts it: for the listed `component`-type
file `checkbox.tsx` that is absent from disk, the unconditional
`fs.readFile` of the syntax-check loop rejects with ENOENT, so
`validateComponent` raises instead of returning an error list. -/
theorem c4_validate_raises_on_missing_component_file :
    dirParse checkboxDir = some checkboxComponent ∧
    fileExists checkboxDir "checkbox.tsx" = false ∧
    validateComponent checkboxComponent checkboxDir [checkboxDir] =
      Except.error "ENOENT: no such file or directory, open checkbox.tsx" := by
  refine ⟨by decide, by decide, rfl⟩

/-- C5 counterexample: in the checkbox missing-file scenario the build
reports exactly the one missing-file error naming `checkbox.tsx` (so the
claim's scenario applies), yet the process exit code is 0, refuting the
claim's non-zero overall outcome. -/
theorem c5_counterexample_exit_code_zero :
    (buildCommand fixtureConfig checkboxEnv fixtureTime).errors =
      [BuildError.missingFiles "checkbox" ["checkbox.tsx"]] ∧
    BuildError.render (BuildError.missingFiles "checkbox" ["checkbox.tsx"]) =
      "Component checkbox missing files: checkbox.tsx" ∧
    (buildCommand fixtureConfig checkboxEnv fixtureTime).exitCode = 0 := by
  refine ⟨by decide, by decide, by decide⟩

/-- C5 (amended): in the checkbox scenario the build reports exactly one
missing-file error naming `checkbox.tsx`, the aggregated component list
excludes `checkbox` (only the valid `button` is kept), nothing is written,
and the build returns normally with process exit code 0 — the failure is
signalled only by the printed error report. -/
theorem c5_missing_file_scenario :
    (buildCommand fixtureConfig checkboxEnv fixtureTime).errors.count
      (BuildError.missingFiles "checkbox" ["checkbox.tsx"]) = 1 ∧
    (buildCommand fixtureConfig checkboxEnv fixtureTime).components = [buttonComponent] ∧
    (buildCommand fixtureConfig checkboxEnv fixtureTime).output = emptyOutput ∧
    (buildCommand fixtureConfig checkboxEnv fixtureTime).exitCode = 0 := by
  refine ⟨by decide, by decide, by decide, by decide⟩

/-- C8 counterexample: for the cyclic trio aaa → bbb → ccc → aaa,
validating `aaa` reports the single circular-dependency error naming only
`["bbb"]`, so the reported set does not contain all three names as the
claim states. -/
theorem c8_counterexample_reported_names :
    validateComponent (mkTrioComponent "aaa" "bbb") trioDirA trioEnv =
      Except.ok [ValidationError.circular ["bbb"]] ∧
    ¬ "aaa" ∈ (["bbb"] : List String) := by
  refine ⟨rfl, by decide⟩

/-- C8 (amended): for the cyclic trio, validating any one of the three
components does report a circular-dependency error, but the set of
reported names is exactly the singleton registry dependency of the
component being validated — the successor on the cycle — not all three
names; the cycle itself is real (the spec-modelled traversal finds it). -/
theorem c8_trio_reports_successor_only :
    spec_hasCycleFrom trioEnv "aaa" = true ∧
    validateComponent (mkTrioComponent "aaa" "bbb") trioDirA trioEnv =
      Except.ok [ValidationError.circular ["bbb"]] ∧
    validateComponent (mkTrioComponent "bbb" "ccc") trioDirB trioEnv =
      Except.ok [ValidationError.circular ["ccc"]] ∧
    validateComponent (mkTrioComponent "ccc" "aaa") trioDirC trioEnv =
      Except.ok [ValidationError.circular ["aaa"]] := by
  refine ⟨by decide, rfl, rfl, rfl⟩

/-- C3 counterexample: a raw record lacking `files` does not parse — the
`files` field of `ComponentSchema` carries no default — refuting the
claim that such a record parses with `files = []`. -/
theorem c3_counterexample_files_required :
    rawNoFiles.files = none ∧
    ComponentSchema_parse rawNoFiles = Except.error "files: Required" := by
  refine ⟨rfl, rfl⟩

/-- Fixture prop whose optional fields are present but falsy: the default
is `false` and the description is the empty string. -/
def falsyProp : ComponentProp :=
  { name := "disabled", ptype := "boolean", required := false,
    default := some (JsVal.bool false), description := some "" }

/-- C9 counterexample: for a prop whose `default` is present with the
falsy value `false`, the Default cell renders the placeholder, not the
value "false"; the same happens to the present-but-empty description. -/
theorem c9_counterexample_falsy_default :
    falsyProp.default = some (JsVal.bool false) ∧
    (renderPropRow falsyProp).defaultCell = "—" ∧
    (JsVal.bool false).render = "false" ∧
    falsyProp.description = some "" ∧
    (renderPropRow falsyProp).descriptionCell = "—" := by
  refine ⟨rfl, rfl, rfl, rfl, rfl⟩

/-- C9 (amended): the Default and Description cells render the
placeholder when the optional field is absent or its value is falsy
(`false`, `0`, the empty string), and render the value's string form
whenever the value is truthy. -/
theorem c9_prop_cells (prop : ComponentProp) :
    (prop.default = none → (renderPropRow prop).defaultCell = "—") ∧
    (∀ v, prop.default = some v →
      (renderPropRow prop).defaultCell = (if v.truthy then v.render else "—")) ∧
    (prop.description = none → (renderPropRow prop).descriptionCell = "—") ∧
    (∀ s, prop.description = some s →
      (renderPropRow prop).descriptionCell = (if s = "" then "—" else s)) := by
  refine ⟨?_, ?_, ?_, ?_⟩
  · intro h
    simp [renderPropRow, jsValOrDash, h]
  · intro v h
    simp [renderPropRow, jsValOrDash, h]
  · intro h
    simp [renderPropRow, strOrDash, h]
  · intro s h
    simp [renderPropRow, strOrDash, h]

/-- C9 witness: the amended cell description evaluated at the concrete
falsy prop. -/
theorem c9_prop_cells_witness :
    (renderPropRow falsyProp).defaultCell =
      (if (JsVal.bool false).truthy then (JsVal.bool false).render else "—") :=
  (c9_prop_cells falsyProp).2.1 (JsVal.bool false) rfl

/-- C2: whenever any error was accumulated across the discovered
descriptors, the build aborts and writes nothing — no registry document,
no copied component files, no documentation, no index and no dependency
manifest. -/
theorem c2_errors_abort_write_nothing (config : ForgeConfig) (env : Env) (now : BuildTime)
    (h : (buildCommand config env now).errors ≠ []) :
    (buildCommand config env now).output = emptyOutput := by
  by_cases hd : (discoveredDirs env).isEmpty
  · simp [buildCommand, hd] at h
  · by_cases he : ((discoveredDirs env).foldl (processDir env) initialBuildState).errors = []
    · simp [buildCommand, hd, he] at h
    · simp [buildCommand, hd, he]

/-- C2 witness: the checkbox scenario accumulates an error and indeed
writes nothing. -/
theorem c2_errors_abort_write_nothing_witness :
    (buildCommand fixtureConfig checkboxEnv fixtureTime).output = emptyOutput :=
  c2_errors_abort_write_nothing fixtureConfig checkboxEnv fixtureTime (by decide)

/-- C10: the registry rewrite of `removeCommand` drops exactly the
entries named `componentName` and refreshes `lastUpdated`; every other
registry field is unchanged and the surviving component entries are
unchanged and keep their original order. -/
theorem c10_remove_registry_frame (registry : Registry) (componentName now : String) :
    (removeFromRegistry registry componentName now).name = registry.name ∧
    (removeFromRegistry registry componentName now).description = registry.description ∧
    (removeFromRegistry registry componentName now).version = registry.version ∧
    (removeFromRegistry registry componentName now).author = registry.author ∧
    (removeFromRegistry registry componentName now).license = registry.license ∧
    (removeFromRegistry registry componentName now).repository = registry.repository ∧
    (removeFromRegistry registry componentName now).homepage = registry.homepage ∧
    (removeFromRegistry registry componentName now).categories = registry.categories ∧
    (removeFromRegistry registry componentName now).tags = registry.tags ∧
    (removeFromRegistry registry componentName now).lastUpdated = now ∧
    (∀ c ∈ (removeFromRegistry registry componentName now).components, c.name ≠ componentName) ∧
    List.Sublist (removeFromRegistry registry componentName now).components registry.components ∧
    (∀ c ∈ registry.components, c.name ≠ componentName →
      c ∈ (removeFromRegistry registry componentName now).components) := by
  refine ⟨rfl, rfl, rfl, rfl, rfl, rfl, rfl, rfl, rfl, rfl, ?_, ?_, ?_⟩
  · intro c hc
    have := List.of_mem_filter hc
    simpa using this
  · exact List.filter_sublist _
  · intro c hc hne
    refine List.mem_filter.2 ⟨hc, by simpa using hne⟩

/-- Fixture registry for exercising the removal rewrite. -/
def fixtureRegistry : Registry :=
  { name := "my-lib", description := "", version := "1.0.0", author := "",
    license := "MIT", repository := "", homepage := "",
    components := [buttonComponent, checkboxComponent],
    categories := ["ui"], tags := [], lastUpdated := "old" }

/-- C10 witness: removing `checkbox` from the fixture registry keeps the
header fields and keeps `button`. -/
theorem c10_remove_registry_frame_witness :
    (removeFromRegistry fixtureRegistry "checkbox" "new").name = fixtureRegistry.name ∧
    buttonComponent ∈ (removeFromRegistry fixtureRegistry "checkbox" "new").components :=
  ⟨(c10_remove_registry_frame fixtureRegistry "checkbox" "new").1,
   (c10_remove_registry_frame fixtureRegistry "checkbox" "new").2.2.2.2.2.2.2.2.2.2.2.2
     buttonComponent (by decide) (by decide)⟩

/-- The parse result of the minimal raw descriptor named `switch` with an
empty `files` list and no optional fields. -/
def switchComponent : Component :=
  { name := "switch", displayName := "switch", description := "switch",
    category := "ui", version := "1.0.0", author := none, license := "MIT",
    props := [], dependencies := [], peerDependencies := [], files := [],
    examples := [], docs := none, registryDependencies := [], tags := [],
    preview := none, privateFlag := false, deprecated := false,
    experimental := false }

/-- C3 (amended): schema validation applies the defaulting policy to
every optional field — an absent `category` becomes "ui", an absent
`version` becomes "1.0.0", absent list-valued fields (`props`,
`dependencies`, `tags`, `examples`, `registryDependencies`) become the
empty sequence, absent boolean flags (`required`, `dev`, `private`,
`deprecated`, `experimental`) become `false` — but `files` carries no
default: a record lacking `files` fails to parse. -/
theorem c3_schema_defaulting (r : RawComponent) (c : Component)
    (h : ComponentSchema_parse r = Except.ok c) :
    (r.category = none → c.category = "ui") ∧
    (r.version = none → c.version = "1.0.0") ∧
    (r.props = none → c.props = []) ∧
    (r.dependencies = none → c.dependencies = []) ∧
    (r.tags = none → c.tags = []) ∧
    (r.examples = none → c.examples = []) ∧
    (r.registryDependencies = none → c.registryDependencies = []) ∧
    (r.privateFlag = none → c.privateFlag = false) ∧
    (r.deprecated = none → c.deprecated = false) ∧
    (r.experimental = none → c.experimental = false) ∧
    (∀ rp cp, parseProp rp = Except.ok cp → rp.required = none → cp.required = false) ∧
    (∀ rd cd, parseDependency rd = Except.ok cd → rd.dev = none → cd.dev = false) ∧
    (∀ r2 : RawComponent, ∀ c2 : Component, r2.files = none →
      ComponentSchema_parse r2 ≠ Except.ok c2) := by
  unfold ComponentSchema_parse at h
  repeat' split at h
  all_goals try exact Except.noConfusion h
  rw [Except.ok.injEq] at h
  subst h
  refine ⟨?_, ?_, ?_, ?_, ?_, ?_, ?_, ?_, ?_, ?_, ?_, ?_, ?_⟩
  · intro hx
    simp_all [mapExcept]
  · intro hx
    simp_all [mapExcept]
  · intro hx
    simp_all [mapExcept]
  · intro hx
    simp_all [mapExcept]
  · intro hx
    simp_all [mapExcept]
  · intro hx
    simp_all [mapExcept]
  · intro hx
    simp_all [mapExcept]
  · intro hx
    simp_all [mapExcept]
  · intro hx
    simp_all [mapExcept]
  · intro hx
    simp_all [mapExcept]
  · intro rp cp hp hr
    unfold parseProp at hp
    repeat' split at hp
    all_goals try exact Except.noConfusion hp
    rw [Except.ok.injEq] at hp
    subst hp
    simp [hr]
  · intro rd cd hp hr
    unfold parseDependency at hp
    repeat' split at hp
    all_goals try exact Except.noConfusion hp
    rw [Except.ok.injEq] at hp
    subst hp
    simp [hr]
  · intro r2 c2 hf hcontra
    unfold ComponentSchema_parse at hcontra
    repeat' split at hcontra
    all_goals try exact Except.noConfusion hcontra
    simp_all

/-- C3 witness: the minimal descriptor with an empty `files` list parses
and receives the defaults. -/
theorem c3_schema_defaulting_witness :
    ComponentSchema_parse (mkRawComponent "switch" [] none) = Except.ok switchComponent ∧
    switchComponent.category = "ui" ∧
    switchComponent.version = "1.0.0" ∧
    switchComponent.props = [] :=
  ⟨rfl,
   (c3_schema_defaulting (mkRawComponent "switch" [] none) switchComponent rfl).1 rfl,
   (c3_schema_defaulting (mkRawComponent "switch" [] none) switchComponent rfl).2.1 rfl,
   (c3_schema_defaulting (mkRawComponent "switch" [] none) switchComponent rfl).2.2.1 rfl⟩


/-- The component name a discovered directory contributes, when its
descriptor parses. -/
def itemName (d : ComponentDir) : Option String :=
  (dirParse d).map (fun c => c.name)

/-- Whether a component bears the name `X`. -/
def nameIs (X : String) (c : Component) : Bool :=
  c.name = X

/-- Whether a directory parses to a component named `X`. -/
def isItemOf (X : String) (d : ComponentDir) : Bool :=
  itemName d = some X

/-- Counting a duplicate-name error across an appended singleton. -/
theorem count_dup_append (es : List BuildError) (e : BuildError) (X : String) :
    (es ++ [e]).count (BuildError.duplicateName X) =
      es.count (BuildError.duplicateName X) + (if e = BuildError.duplicateName X then 1 else 0) := by
  by_cases h : e = BuildError.duplicateName X <;>
    simp [h, List.count_append, List.count_cons, List.count_nil]

/-- How one iteration of the processing loop changes the duplicate-error
count, the registered-name set and the `X`-named entries of the
aggregated component list. -/
theorem processDir_step (env : Env) (st : BuildState) (d : ComponentDir) (X : String) :
    ((processDir env st d).errors.count (BuildError.duplicateName X) =
       st.errors.count (BuildError.duplicateName X) +
       (if isItemOf X d = true ∧ X ∈ st.componentNames then 1 else 0)) ∧
    (X ∈ (processDir env st d).componentNames ↔
       (X ∈ st.componentNames ∨ isItemOf X d = true)) ∧
    (∃ t, (processDir env st d).components.filter (nameIs X) =
        st.components.filter (nameIs X) ++ t ∧
      ((isItemOf X d = false ∨ X ∈ st.componentNames) → t = []) ∧
      (t = [] ∨ ∃ c, dirParse d = some c ∧ t = [c])) := by
  unfold processDir
  cases hdesc : d.descriptor with
  | none =>
    have hitem : isItemOf X d = false := by simp [isItemOf, itemName, dirParse, hdesc]
    refine ⟨by simp [hitem], by simp [hitem], [], by simp, fun _ => rfl, Or.inl rfl⟩
  | some raw =>
    cases hparse : ComponentSchema_parse raw with
    | error msg =>
      have hitem : isItemOf X d = false := by
        simp [isItemOf, itemName, dirParse, hdesc, hparse, Except.toOption]
      simp only [hparse]
      refine ⟨?_, by simp [hitem], [], by simp, fun _ => rfl, Or.inl rfl⟩
      simp [hitem, count_dup_append]
    | ok component =>
      have hdp : dirParse d = some component := by
        simp [dirParse, hdesc, hparse, Except.toOption]
      have hitem : itemName d = some component.name := by simp [itemName, hdp]
      simp only [hparse]
      by_cases hx : component.name = X
      · subst hx
        have hiso : isItemOf component.name d = true := by simp [isItemOf, hitem]
        split
        next hc =>
          have hcm : component.name ∈ st.componentNames := by simpa using hc
          refine ⟨?_, ?_, [], by simp, fun _ => rfl, Or.inl rfl⟩
          · simp [hiso, hcm, count_dup_append]
          · simp [hcm, hiso]
        next hc =>
          have hcm : ¬ component.name ∈ st.componentNames := by simpa using hc
          split
          next hm =>
            refine ⟨?_, ?_, [], by simp, fun _ => rfl, Or.inl rfl⟩
            · simp [hiso, hcm, count_dup_append]
            · simp [hcm, hiso]
          next hm =>
            split
            next msg hv =>
              refine ⟨?_, ?_, [], by simp, fun _ => rfl, Or.inl rfl⟩
              · simp [hiso, hcm, count_dup_append]
              · simp [hcm, hiso]
            next ves hv =>
              split
              next hne =>
                refine ⟨?_, ?_, [], by simp, fun _ => rfl, Or.inl rfl⟩
                · simp [hiso, hcm, count_dup_append]
                · simp [hcm, hiso]
              next hne =>
                refine ⟨?_, ?_, [component], ?_, ?_, Or.inr ⟨component, hdp, rfl⟩⟩
                · simp [hiso, hcm, count_dup_append]
                · simp [hcm, hiso]
                · simp [List.filter_append, nameIs]
                · intro hcase
                  rcases hcase with h1 | h2
                  · rw [hiso] at h1
                    exact absurd h1 (by simp)
                  · exact absurd h2 hcm
      · have hx1 : ¬ X = component.name := fun h => hx h.symm
        have hiso : isItemOf X d = false := by
          simp [isItemOf, hitem]
          intro h
          exact absurd h hx
        have hfil : ∀ l : List Component, (l ++ [component]).filter (nameIs X) = l.filter (nameIs X) := by
          intro l
          simp [List.filter_append, nameIs, hx]
        have hdne : ¬ BuildError.duplicateName component.name = BuildError.duplicateName X := by
          simp [hx]
        split
        next hc =>
          refine ⟨?_, ?_, [], by simp, fun _ => rfl, Or.inl rfl⟩
          · rw [count_dup_append]
            simp [hiso, hdne]
          · simp [hiso]
        next hc =>
          split
          next hm =>
            refine ⟨?_, ?_, [], by simp, fun _ => rfl, Or.inl rfl⟩
            · simp [hiso, count_dup_append]
            · simp [hiso, hx1, List.mem_append]
          next hm =>
            split
            next msg hv =>
              refine ⟨?_, ?_, [], by simp, fun _ => rfl, Or.inl rfl⟩
              · simp [hiso, count_dup_append]
              · simp [hiso, hx1, List.mem_append]
            next ves hv =>
              split
              next hne =>
                refine ⟨?_, ?_, [], by simp, fun _ => rfl, Or.inl rfl⟩
                · simp [hiso, count_dup_append]
                · simp [hiso, hx1, List.mem_append]
              next hne =>
                refine ⟨?_, ?_, [], ?_, fun _ => rfl, Or.inl rfl⟩
                · simp [hiso, count_dup_append]
                · simp [hiso, hx1, List.mem_append]
                · simp [hfil]

/-- Once `X` is registered, every later item parsing to `X` adds exactly
one duplicate-name error and no `X`-named component. -/
theorem fold_registered (env : Env) (X : String) (l : List ComponentDir) : ∀ st : BuildState,
    X ∈ st.componentNames →
    ((l.foldl (processDir env) st).errors.count (BuildError.duplicateName X) =
       st.errors.count (BuildError.duplicateName X) + l.countP (isItemOf X)) ∧
    ((l.foldl (processDir env) st).components.filter (nameIs X) =
       st.components.filter (nameIs X)) ∧
    X ∈ (l.foldl (processDir env) st).componentNames := by
  induction l with
  | nil =>
    intro st h
    exact ⟨by simp, rfl, h⟩
  | cons d rest ih =>
    intro st h
    obtain ⟨hcount, hmemiff, t, hfilter, hunch, _⟩ := processDir_step env st d X
    have ht : t = [] := hunch (Or.inr h)
    subst ht
    have h2 : X ∈ (processDir env st d).componentNames := hmemiff.2 (Or.inl h)
    obtain ⟨ihc, ihf, ihm⟩ := ih (processDir env st d) h2
    refine ⟨?_, ?_, ihm⟩
    · rw [List.foldl_cons, ihc, hcount, List.countP_cons]
      by_cases hi : isItemOf X d = true
      · simp [hi, h]
        omega
      · have hif : isItemOf X d = false := by simpa using hi
        simp [hif]
    · rw [List.foldl_cons, ihf, hfilter]
      simp

/-- Processing a list holding exactly two items that parse to the fresh
name `X` yields exactly one duplicate-name error for `X`, and at most the
first such item's component joins the aggregated list. -/
theorem fold_fresh_two (env : Env) (X : String) (l : List ComponentDir) : ∀ st : BuildState,
    ¬ X ∈ st.componentNames → l.countP (isItemOf X) = 2 →
    ((l.foldl (processDir env) st).errors.count (BuildError.duplicateName X) =
       st.errors.count (BuildError.duplicateName X) + 1) ∧
    (∃ t, (l.foldl (processDir env) st).components.filter (nameIs X) =
        st.components.filter (nameIs X) ++ t ∧
      (t = [] ∨ ∃ d0 c0, l.find? (isItemOf X) = some d0 ∧ dirParse d0 = some c0 ∧ t = [c0])) := by
  induction l with
  | nil =>
    intro st hmem h2
    simp at h2
  | cons d rest ih =>
    intro st hmem h2
    obtain ⟨hcount, hmemiff, t0, hfilter, hunch, hts0⟩ := processDir_step env st d X
    by_cases hi : isItemOf X d = true
    · have hmem2 : X ∈ (processDir env st d).componentNames := hmemiff.2 (Or.inr hi)
      have hrest : rest.countP (isItemOf X) = 1 := by
        rw [List.countP_cons] at h2
        simp [hi] at h2
        omega
      obtain ⟨ihc, ihf, _⟩ := fold_registered env X rest (processDir env st d) hmem2
      refine ⟨?_, t0, ?_, ?_⟩
      · rw [List.foldl_cons, ihc, hcount, hrest]
        simp [hi, hmem]
      · rw [List.foldl_cons, ihf, hfilter]
      · rcases hts0 with ht | ⟨c, hdp, ht⟩
        · exact Or.inl ht
        · exact Or.inr ⟨d, c, List.find?_cons_of_pos _ hi, hdp, ht⟩
    · have hif : isItemOf X d = false := by simpa using hi
      have ht0 : t0 = [] := hunch (Or.inl hif)
      subst ht0
      have hmem2 : ¬ X ∈ (processDir env st d).componentNames := by
        rw [hmemiff]
        rintro (h | h)
        · exact hmem h
        · rw [hif] at h
          exact absurd h (by simp)
      have hrest : rest.countP (isItemOf X) = 2 := by
        rw [List.countP_cons] at h2
        simpa [hif] using h2
      obtain ⟨ihc, t, ihf, ihts⟩ := ih (processDir env st d) hmem2 hrest
      refine ⟨?_, t, ?_, ?_⟩
      · rw [List.foldl_cons, ihc, hcount]
        simp [hif]
      · rw [List.foldl_cons, ihf, hfilter]
        simp
      · rcases ihts with h | ⟨d0, c0, hfind, hdp, ht⟩
        · exact Or.inl h
        · refine Or.inr ⟨d0, c0, ?_, hdp, ht⟩
          rw [List.find?_cons_of_neg _ (by simp [hif])]
          exact hfind

/-- The errors and the aggregated component list of a non-empty build are
those of the processing fold. -/
theorem buildCommand_errors_components (config : ForgeConfig) (env : Env) (now : BuildTime)
    (h : (discoveredDirs env).isEmpty = false) :
    (buildCommand config env now).errors =
      ((discoveredDirs env).foldl (processDir env) initialBuildState).errors ∧
    (buildCommand config env now).components =
      ((discoveredDirs env).foldl (processDir env) initialBuildState).components := by
  by_cases he : ((discoveredDirs env).foldl (processDir env) initialBuildState).errors = []
  · constructor <;> simp [buildCommand, h, he]
  · constructor <;> simp [buildCommand, h, he]

/-- C6: when exactly two discovered descriptors parse to the same name,
the build reports exactly one duplicate-name error referencing that name,
the aggregated component list holds at most one component of that name,
and any such component is the parse of the first of the two — the second
is excluded. -/
theorem c6_duplicate_name_excluded (config : ForgeConfig) (env : Env) (now : BuildTime) (X : String)
    (h2 : (discoveredDirs env).countP (isItemOf X) = 2) :
    (buildCommand config env now).errors.count (BuildError.duplicateName X) = 1 ∧
    ((buildCommand config env now).components.filter (nameIs X)).length ≤ 1 ∧
    (∀ c ∈ (buildCommand config env now).components, nameIs X c = true →
      ∃ d0, (discoveredDirs env).find? (isItemOf X) = some d0 ∧ dirParse d0 = some c) := by
  have hne : (discoveredDirs env).isEmpty = false := by
    cases hl : discoveredDirs env with
    | nil => rw [hl] at h2; simp at h2
    | cons a l => rfl
  obtain ⟨he, hc⟩ := buildCommand_errors_components config env now hne
  rw [he, hc]
  obtain ⟨hcount, t, hfilter, hts⟩ :=
    fold_fresh_two env X (discoveredDirs env) initialBuildState (by simp [initialBuildState]) h2
  have hfilter2 : ((discoveredDirs env).foldl (processDir env) initialBuildState).components.filter (nameIs X) = t := by
    rw [hfilter]
    simp [initialBuildState]
  refine ⟨?_, ?_, ?_⟩
  · rw [hcount]
    simp [initialBuildState]
  · rw [hfilter2]
    rcases hts with ht | ⟨d0, c0, _, _, ht⟩ <;> subst ht <;> simp
  · intro c hcmem hname
    have hmemf : c ∈ ((discoveredDirs env).foldl (processDir env) initialBuildState).components.filter (nameIs X) :=
      List.mem_filter.2 ⟨hcmem, hname⟩
    rw [hfilter2] at hmemf
    rcases hts with ht | ⟨d0, c0, hfind, hdp, ht⟩
    · subst ht
      simp at hmemf
    · subst ht
      have : c = c0 := by simpa using hmemf
      subst this
      exact ⟨d0, hfind, hdp⟩

/-- Fixture: two directories whose descriptors both parse to the name
`twin`. -/
def twinDirOne : ComponentDir :=
  { name := "twin-one",
    descriptor := some (mkRawComponent "twin" [mkRawFile "twin.tsx"] none),
    files := [{ path := "twin.tsx", content := okContent }],
    nestedDescriptorDirs := [] }

/-- The second directory parsing to the duplicate name `twin`. -/
def twinDirTwo : ComponentDir :=
  { name := "twin-two",
    descriptor := some (mkRawComponent "twin" [mkRawFile "twin.tsx"] none),
    files := [{ path := "twin.tsx", content := okContent }],
    nestedDescriptorDirs := [] }

/-- Fixture environment with the duplicate pair. -/
def twinEnv : Env := [twinDirOne, twinDirTwo]

/-- C6 witness: the duplicate pair produces exactly one duplicate-name
error. -/
theorem c6_duplicate_name_excluded_witness :
    (buildCommand fixtureConfig twinEnv fixtureTime).errors.count
      (BuildError.duplicateName "twin") = 1 :=
  (c6_duplicate_name_excluded fixtureConfig twinEnv fixtureTime "twin" (by decide)).1

/-- One iteration of the processing loop only appends to the error list,
and an iteration of a discovered directory that adds no error appends
exactly one accepted component. -/
theorem processDir_shape (env : Env) (st : BuildState) (d : ComponentDir) :
    (∃ E, (processDir env st d).errors = st.errors ++ E) ∧
    ((processDir env st d).errors = st.errors → d.descriptor.isSome = true →
      ∃ c, (processDir env st d).components = st.components ++ [c]) := by
  unfold processDir
  cases hdesc : d.descriptor with
  | none =>
    refine ⟨⟨[], (List.append_nil _).symm⟩, fun _ hs => ?_⟩
    simp [hdesc] at hs
  | some raw =>
    cases hparse : ComponentSchema_parse raw with
    | error msg =>
      simp only [hparse]
      refine ⟨⟨_, rfl⟩, fun h _ => ?_⟩
      exfalso
      have hlen := congrArg List.length h
      simp at hlen
    | ok component =>
      simp only [hparse]
      split
      next hc =>
        refine ⟨⟨_, rfl⟩, fun h _ => ?_⟩
        exfalso
        have hlen := congrArg List.length h
        simp at hlen
      next hc =>
        split
        next hm =>
          refine ⟨⟨_, rfl⟩, fun h _ => ?_⟩
          exfalso
          have hlen := congrArg List.length h
          simp at hlen
        next hm =>
          split
          next msg hv =>
            refine ⟨⟨_, rfl⟩, fun h _ => ?_⟩
            exfalso
            have hlen := congrArg List.length h
            simp at hlen
          next ves hv =>
            split
            next hne =>
              refine ⟨⟨_, rfl⟩, fun h _ => ?_⟩
              exfalso
              have hlen := congrArg List.length h
              simp at hlen
            next hne =>
              exact ⟨⟨[], (List.append_nil _).symm⟩, fun _ _ => ⟨component, rfl⟩⟩

/-- The processing fold only appends to the error list. -/
theorem fold_errors_append (env : Env) (l : List ComponentDir) : ∀ st : BuildState,
    ∃ E, (l.foldl (processDir env) st).errors = st.errors ++ E := by
  induction l with
  | nil => exact fun st => ⟨[], by simp⟩
  | cons d rest ih =>
    intro st
    obtain ⟨E1, h1⟩ := (processDir_shape env st d).1
    obtain ⟨E2, h2⟩ := ih (processDir env st d)
    exact ⟨E1 ++ E2, by rw [List.foldl_cons, h2, h1, List.append_assoc]⟩

/-- A processing fold of discovered directories that ends with no errors
accepted every directory: one component per directory. -/
theorem fold_ok_length (env : Env) (l : List ComponentDir) : ∀ st : BuildState,
    (∀ d ∈ l, d.descriptor.isSome = true) →
    (l.foldl (processDir env) st).errors = [] →
    (l.foldl (processDir env) st).components.length = st.components.length + l.length := by
  induction l with
  | nil =>
    intro st _ _
    simp
  | cons d rest ih =>
    intro st hall hz
    rw [List.foldl_cons] at hz ⊢
    obtain ⟨E2, h2⟩ := fold_errors_append env rest (processDir env st d)
    obtain ⟨E1, h1⟩ := (processDir_shape env st d).1
    rw [h2] at hz
    have hstep : (processDir env st d).errors = [] := (List.append_eq_nil.1 hz).1
    have hst : st.errors = [] := by
      rw [h1] at hstep
      exact (List.append_eq_nil.1 hstep).1
    obtain ⟨c, hcomp⟩ := (processDir_shape env st d).2 (by rw [hstep, hst]) (hall d (by simp))
    have hlen := ih (processDir env st d) (fun x hx => hall x (by simp [hx])) (by rw [h2, hstep]; simpa using (List.append_eq_nil.1 hz).2)
    rw [hlen, hcomp]
    simp
    omega

/-- Membership across the deduplication fold. -/
theorem dedup_go_mem (a : String) (xs : List String) : ∀ acc : List String,
    (a ∈ xs.foldl (fun acc x => if acc.contains x then acc else acc ++ [x]) acc ↔
      a ∈ acc ∨ a ∈ xs) := by
  induction xs with
  | nil => simp
  | cons x rest ih =>
    intro acc
    rw [List.foldl_cons]
    by_cases hx : acc.contains x = true
    · have hxm : x ∈ acc := by simpa using hx
      rw [if_pos hx, ih]
      constructor
      · rintro (h | h)
        · exact Or.inl h
        · exact Or.inr (by simp [h])
      · rintro (h | h)
        · exact Or.inl h
        · rcases List.mem_cons.1 h with h1 | h1
          · subst h1
            exact Or.inl hxm
          · exact Or.inr h1
    · rw [if_neg hx, ih]
      simp [List.mem_append, or_assoc]

/-- The deduplication fold preserves freedom from duplicates. -/
theorem dedup_go_nodup (xs : List String) : ∀ acc : List String,
    acc.Nodup →
    (xs.foldl (fun acc x => if acc.contains x then acc else acc ++ [x]) acc).Nodup := by
  induction xs with
  | nil => exact fun acc h => h
  | cons x rest ih =>
    intro acc hacc
    rw [List.foldl_cons]
    by_cases hx : acc.contains x = true
    · rw [if_pos hx]
      exact ih acc hacc
    · rw [if_neg hx]
      refine ih _ ?_
      have hxm : ¬ x ∈ acc := by simpa using hx
      simp [List.nodup_append, hacc, hxm]

/-- `dedup` keeps exactly the members of its input. -/
theorem mem_dedup (a : String) (xs : List String) : a ∈ dedup xs ↔ a ∈ xs := by
  unfold dedup
  rw [dedup_go_mem]
  simp

/-- `dedup` yields a duplicate-free list. -/
theorem dedup_nodup (xs : List String) : (dedup xs).Nodup := by
  unfold dedup
  exact dedup_go_nodup xs [] (by simp)

/-- The write phase depends on the build time only through the timestamp
fields and the documentation footer year. -/
theorem generateOutputs_erase_time (config : ForgeConfig) (env : Env)
    (components : List Component) (t1 t2 : BuildTime) :
    eraseTimeDerived (generateOutputs config env components t1) =
      eraseTimeDerived (generateOutputs config env components t2) := rfl

/-- C7 (amended): for every set of component directories that the build
accepts — it accumulates no errors, a condition strictly stronger than
the claim's no-collisions/no-missing-files/no-cycles validity, because
the cycle-check bug of C1 also rejects components whose
`registryDependencies` name an existing sibling even on acyclic graphs —
the written registry holds exactly one component per discovered
directory, its categories are the distinct category values of those
components, and two runs over unchanged inputs produce identical outputs
once the build-time-derived fields (the three timestamps and the
documentation footer year) are erased. -/
theorem c7_valid_build_registry (config : ForgeConfig) (env : Env) (t1 t2 : BuildTime)
    (hne : (discoveredDirs env).isEmpty = false)
    (hz : (buildCommand config env t1).errors = []) :
    (∃ reg, (buildCommand config env t1).output.registryJson = some reg ∧
      reg.components.length = (discoveredDirs env).length ∧
      reg.categories = dedup (reg.components.map (fun c => c.category)) ∧
      reg.categories.Nodup ∧
      (∀ s, s ∈ reg.categories ↔ s ∈ reg.components.map (fun c => c.category))) ∧
    eraseTimeDerived (buildCommand config env t1).output =
      eraseTimeDerived (buildCommand config env t2).output := by
  have hfold : ((discoveredDirs env).foldl (processDir env) initialBuildState).errors = [] := by
    obtain ⟨he, _⟩ := buildCommand_errors_components config env t1 hne
    rw [he] at hz
    exact hz
  have hout : ∀ t : BuildTime, (buildCommand config env t).output =
      generateOutputs config env
        ((discoveredDirs env).foldl (processDir env) initialBuildState).components t := by
    intro t
    simp [buildCommand, hne, hfold]
  constructor
  · refine ⟨mkRegistry config
      ((discoveredDirs env).foldl (processDir env) initialBuildState).components t1,
      ?_, ?_, ?_, ?_, ?_⟩
    · rw [hout t1]
      rfl
    · show ((discoveredDirs env).foldl (processDir env) initialBuildState).components.length = _
      have hall : ∀ d ∈ discoveredDirs env, d.descriptor.isSome = true := by
        intro d hd
        exact (List.mem_filter.1 hd).2
      have := fold_ok_length env (discoveredDirs env) initialBuildState hall hfold
      rw [this]
      simp [initialBuildState]
    · rfl
    · exact dedup_nodup _
    · intro s
      exact mem_dedup s _
  · rw [hout t1, hout t2]
    exact generateOutputs_erase_time config env _ t1 t2

/-- C7 counterexample: the claim fails twice on the code.  First, the
acyclic environment alpha → beta is valid in the claim's sense — two
distinct names, every listed file present, and the spec-modelled
dependency graph acyclic from both components — yet the build's only
error is the spurious circular-dependency report of the C1 bug, so the
build aborts and no registry with N = 2 components is produced at all.
Second, even for an input the build does accept, two runs at times in
different years differ beyond the timestamp fields: the documentation
footer year is also derived from the build time. -/
theorem c7_counterexample_valid_input_no_registry :
    spec_hasCycleFrom acyclicEnv "alpha" = false ∧
    spec_hasCycleFrom acyclicEnv "beta" = false ∧
    (discoveredDirs acyclicEnv).length = 2 ∧
    (buildCommand fixtureConfig acyclicEnv fixtureTime).errors =
      [BuildError.semantic "alpha" ["Circular dependencies detected: beta"]] ∧
    (buildCommand fixtureConfig acyclicEnv fixtureTime).output.registryJson = none ∧
    (buildCommand fixtureConfig buttonEnv earlierTime).errors = [] ∧
    eraseTimestampFields (buildCommand fixtureConfig buttonEnv earlierTime).output ≠
      eraseTimestampFields (buildCommand fixtureConfig buttonEnv fixtureTime).output := by
  refine ⟨by decide, by decide, by decide, by decide, by decide, by decide, by decide⟩

/-- C7 witness: the single-component build has no errors and its two runs
agree after erasing the build-time-derived fields. -/
theorem c7_valid_build_registry_witness :
    eraseTimeDerived (buildCommand fixtureConfig buttonEnv earlierTime).output =
      eraseTimeDerived (buildCommand fixtureConfig buttonEnv fixtureTime).output :=
  (c7_valid_build_registry fixtureConfig buttonEnv earlierTime fixtureTime
    (by decide) (by decide)).2
